import Mathlib

/-!
Verification development for the timelapse generator `create_timelapse.py`
(wplace-surabaya-timelapse).

The script is embedded shallowly:

* Python `str.split(sep)` / slicing / `int(...)` parsing / truthiness are
  modelled by executable Lean functions on `String` and `List Char`
  (`pySplit`, `pySlice`, `pyParseInt`, `pyTruthy`);
* Python float division used for the scale factors is modelled by exact
  rational arithmetic (`ℚ`); `int(x)` on the nonnegative values that occur
  is `Int.floor` followed by `Int.toNat`;
* Python `//` (floor division on integers) is `Int.fdiv`;
* PIL images are modelled by their geometry: width, height and mode
  (`RGB` images are fully opaque, `RGBA` may carry transparency);
* environment variables are `Option String` (unset = `none`);
* the module-level background cache `_BG_CACHE` is modelled by explicit
  state passing, with the filesystem state of the static-map reference
  (absent / present-but-unreadable / readable with a given size) as an
  explicit parameter.
-/

namespace Timelapse

/-! ## Python primitives -/

/-- Python truthiness of an optional environment-variable value:
`None` and the empty string are falsy, every other string is truthy. -/
def pyTruthy : Option String → Bool
  | none => false
  | some s => decide (s ≠ "")

/-- Split a character list at every occurrence of `sep`, keeping empty
segments, exactly like Python's `str.split(sep)` with a one-character
separator (so `splitChar '_' [] = [[]]` just as `"".split('_') == ['']`). -/
def splitChar (sep : Char) (s : List Char) : List (List Char) :=
  s.foldr
    (fun c acc =>
      if c = sep then [] :: acc
      else
        match acc with
        | g :: gs => (c :: g) :: gs
        | [] => [[c]])
    [[]]

/-- Python `s.split(sep)` for a one-character separator. -/
def pySplit (s : String) (sep : Char) : List String :=
  (splitChar sep s.toList).map String.mk

/-- Python slice `s[a:b]` (for `0 ≤ a ≤ b`). -/
def pySlice (s : String) (a b : Nat) : String :=
  String.mk ((s.toList.drop a).take (b - a))

/-- Numeric value of a digit string (most significant digit first). -/
def digitsVal (cs : List Char) : Nat :=
  cs.foldl (fun a c => 10 * a + (c.toNat - '0'.toNat)) 0

/-- Python `int(s)`: strip surrounding whitespace, allow one optional sign,
then a nonempty run of decimal digits; anything else raises `ValueError`,
modelled as `none`.  (Digit-group underscores and non-ASCII digits, which
CPython also accepts, are not modelled; no input considered here uses them.) -/
def pyParseInt (s : String) : Option Int :=
  let cs := s.toList.dropWhile Char.isWhitespace
  let cs := (cs.reverse.dropWhile Char.isWhitespace).reverse
  match cs with
  | [] => none
  | '+' :: rest =>
      if rest ≠ [] ∧ rest.all Char.isDigit then some (digitsVal rest) else none
  | '-' :: rest =>
      if rest ≠ [] ∧ rest.all Char.isDigit then some (-(digitsVal rest : Int)) else none
  | _ =>
      if cs.all Char.isDigit then some (digitsVal cs) else none

/-- POSIX `os.path.basename`: everything after the last `/`. -/
def basename (p : String) : String :=
  (pySplit p '/').getLastD ""

/-! ## PIL image geometry -/

/-- PIL image mode as far as opacity is concerned: `RGB` is fully opaque,
`RGBA` may carry per-pixel transparency. -/
inductive PMode
  | RGB
  | RGBA
deriving DecidableEq

/-- Geometry-level model of a PIL image: its size and mode. -/
structure PImg where
  width : Nat
  height : Nat
  mode : PMode
deriving DecidableEq

/-- Solid-color fallback background: `Image.new('RGB', (tw, th), BACKGROUND_COLOR)`. -/
def solidBg (tw th : Nat) : PImg := ⟨tw, th, PMode.RGB⟩

/-- Cover scale factor of `load_and_prepare_background` (line 66):
`scale = max(target_w / mw, target_h / mh)`, exact rational arithmetic in
place of Python float division.  The products `mw * scale`, `mh * scale`
are nonnegative, so Python's truncating `int(...)` is `Int.floor`. -/
def coverScale (mw mh tw th : Nat) : ℚ :=
  max ((tw : ℚ) / (mw : ℚ)) ((th : ℚ) / (mh : ℚ))

/-- Cover-scaled width `new_w = int(mw * scale)` (line 67). -/
def coverW (mw mh tw th : Nat) : Nat := (⌊(mw : ℚ) * coverScale mw mh tw th⌋).toNat

/-- Cover-scaled height `new_h = int(mh * scale)` (line 68). -/
def coverH (mw mh tw th : Nat) : Nat := (⌊(mh : ℚ) * coverScale mw mh tw th⌋).toNat

/-- The scaled size and crop origin of `load_and_prepare_background`
(lines 66-71): `x0 = (new_w - target_w) // 2`, `y0 = (new_h - target_h) // 2`.
Returns `(new_w, new_h, x0, y0)`. -/
def coverGeom (mw mh tw th : Nat) : Nat × Nat × Int × Int :=
  (coverW mw mh tw th, coverH mw mh tw th,
   Int.fdiv ((coverW mw mh tw th : Int) - (tw : Int)) 2,
   Int.fdiv ((coverH mw mh tw th : Int) - (th : Int)) 2)

/-- Size of the image produced by PIL `Image.crop((x0, y0, x1, y1))`:
always exactly the box size `(x1 - x0, y1 - y0)`. -/
def cropSize (x0 y0 x1 y1 : Int) : Nat × Nat :=
  ((x1 - x0).toNat, (y1 - y0).toNat)

/-- The static-map background produced from a readable reference image of
size `mw × mh` for canvas `tw × th`: cover-scale, center-crop to the box
`(x0, y0, x0 + tw, y0 + th)`, then `convert('RGB')` (lines 69-73). -/
def preparedMapBg (mw mh tw th : Nat) : PImg :=
  let g := coverGeom mw mh tw th
  let s := cropSize g.2.2.1 g.2.2.2 (g.2.2.1 + (tw : Int)) (g.2.2.2 + (th : Int))
  ⟨s.1, s.2, PMode.RGB⟩

/-! ## Background provider with explicit cache state -/

/-- Filesystem state of the static-map reference image
(`STATIC_MAP_PATH`): missing, present but failing to load or decode, or
readable with the given pixel size. -/
inductive RefState
  | absent
  | corrupt
  | available (mw mh : Nat)
deriving DecidableEq

/-- Run configuration visible to `load_and_prepare_background`:
the `MAP_BACKGROUND` switch (`USE_MAP`) and the reference-file state. -/
structure BgWorld where
  useMap : Bool
  ref : RefState
deriving DecidableEq

/-- Result of one call to `load_and_prepare_background`: the new value of
the module-level `_BG_CACHE`, the returned background, and whether the
call invoked `Image.open` on the reference file. -/
structure BgResult where
  cache : Option (Nat × Nat × PImg)
  bg : PImg
  openedRef : Bool
deriving DecidableEq

/-- Body of `load_and_prepare_background` past the cache check
(lines 61-81): if the reference file exists, open it (an open/decode
failure falls back to solid without touching the cache); if it is
readable, build the cover-cropped background and store it in the cache. -/
def bgAfterCacheMiss (W : BgWorld) (c : Option (Nat × Nat × PImg)) (tw th : Nat) : BgResult :=
  match W.ref with
  | RefState.absent => ⟨c, solidBg tw th, false⟩
  | RefState.corrupt => ⟨c, solidBg tw th, true⟩
  | RefState.available mw mh =>
      ⟨some (tw, th, preparedMapBg mw mh tw th), preparedMapBg mw mh tw th, true⟩

/-- State-passing model of `load_and_prepare_background` (lines 54-81).
With `USE_MAP` set, a cache entry matching `(tw, th)` is returned without
touching the reference file; otherwise the reference is consulted.  With
`USE_MAP` unset the solid background is returned unconditionally. -/
def load_and_prepare_background (W : BgWorld) (c : Option (Nat × Nat × PImg))
    (tw th : Nat) : BgResult :=
  if W.useMap then
    match c with
    | some (cw, ch, bg) =>
        if cw = tw ∧ ch = th then ⟨c, bg, false⟩
        else bgAfterCacheMiss W c tw th
    | none => bgAfterCacheMiss W c tw th
  else ⟨c, solidBg tw th, false⟩

/-! ## Image locator -/

/-- Whether a path is matched by `glob.glob(folder + "/merged_tiles_*.png")`:
its basename starts with `merged_tiles_`, ends with `.png`, and is long
enough for the two to not overlap (`*` may match the empty string). -/
def globMatchMergedTiles (p : String) : Bool :=
  let f := (basename p).toList
  List.isPrefixOf "merged_tiles_".toList f &&
    List.isPrefixOf ".png".toList.reverse f.reverse &&
    decide (17 ≤ f.length)

/-- The sort key of `get_images_for_date` (lines 93-101): for filenames with
at least four `_`-separated parts, `parts[2] + "_" + parts[3].split('.')[0]`
(the embedded date and time); otherwise the raw filename. -/
def sortKey (p : String) : String :=
  let fname := basename p
  let parts := pySplit fname '_'
  if 4 ≤ parts.length then
    (parts.getD 2 "") ++ "_" ++ ((pySplit (parts.getD 3 "") '.').getD 0 "")
  else fname

/-- Model of `get_images_for_date` (lines 85-105): `none` models a missing
date folder (return `[]`); otherwise filter the folder's entries by the
glob pattern and sort them by `sortKey` using a stable sort (CPython's
`list.sort` is stable mergesort). -/
def get_images_for_date (listing : Option (List String)) : List String :=
  match listing with
  | none => []
  | some files =>
      (files.filter globMatchMergedTiles).mergeSort
        (fun a b => decide (sortKey a ≤ sortKey b))

/-! ## Frame compositor fit step -/

/-- Contain scale factor of `resize_image_to_fit` (line 118):
`scale = min(target_width / w, target_height / h)`, exact rational
arithmetic in place of Python float division; the products `w * scale`,
`h * scale` are nonnegative, so Python's truncating `int(...)` is
`Int.floor`. -/
def fitScale (w h tw th : Nat) : ℚ :=
  min ((tw : ℚ) / (w : ℚ)) ((th : ℚ) / (h : ℚ))

/-- Contain-scaled width `new_w = int(w * scale)` (line 119). -/
def fitW (w h tw th : Nat) : Nat := (⌊(w : ℚ) * fitScale w h tw th⌋).toNat

/-- Contain-scaled height `new_h = int(h * scale)` (line 120). -/
def fitH (w h tw th : Nat) : Nat := (⌊(h : ℚ) * fitScale w h tw th⌋).toNat

/-- Model of `resize_image_to_fit` (lines 109-128): the RGBA canvas and the
returned placement tuple `(x, y, new_w, new_h)`, with offsets
`x = (target_width - new_w) // 2`, `y = (target_height - new_h) // 2`
(Python floor division, `Int.fdiv`). -/
def resize_image_to_fit (w h tw th : Nat) : PImg × (Int × Int × Nat × Nat) :=
  if w = tw ∧ h = th then (⟨tw, th, PMode.RGBA⟩, (0, 0, w, h))
  else
    (⟨tw, th, PMode.RGBA⟩,
     (Int.fdiv ((tw : Int) - (fitW w h tw th : Int)) 2,
      Int.fdiv ((th : Int) - (fitH w h tw th : Int)) 2,
      fitW w h tw th, fitH w h tw th))

/-! ## Canvas sizer -/

/-- Default output size (constants `DEFAULT_VIDEO_WIDTH/HEIGHT`, lines 43-44). -/
def DEFAULT_VIDEO_WIDTH : Int := 3000

/-- Default output height. -/
def DEFAULT_VIDEO_HEIGHT : Int := 3000

/-- The explicit `VIDEO_WIDTH`/`VIDEO_HEIGHT` override of
`determine_video_size` (lines 147-155): taken when both variables are set
to truthy strings and both parse as integers (`int(...)` — with no
positivity check); a `ValueError` on either makes the pair fall through. -/
def forcedSize (envW envH : Option String) : Option (Int × Int) :=
  if pyTruthy envW && pyTruthy envH then
    match pyParseInt (envW.getD ""), pyParseInt (envH.getD "") with
    | some wi, some hi => some (wi, hi)
    | _, _ => none
  else none

/-- Model of `determine_video_size` (lines 146-179).  `images` carries for
each discovered image the outcome of inspecting it: `some (w, h)` if
`Image.open(path).size` succeeds, `none` if it raises.  Decision order:
forced size; else, with a first image that opens, a valid
`DOWNSCALE_FACTOR` divisor `> 1`; else auto-halving for even sources with
width ≥ 4000; else the native size; else the 3000 × 3000 default. -/
def determine_video_size (envW envH envDS : Option String)
    (images : List (Option (Nat × Nat))) : Int × Int :=
  match forcedSize envW envH with
  | some wh => wh
  | none =>
    match images with
    | [] => (DEFAULT_VIDEO_WIDTH, DEFAULT_VIDEO_HEIGHT)
    | none :: _ => (DEFAULT_VIDEO_WIDTH, DEFAULT_VIDEO_HEIGHT)
    | some (sw, sh) :: _ =>
      let auto : Int × Int :=
        if 4000 ≤ sw ∧ sw % 2 = 0 ∧ sh % 2 = 0 then ((sw / 2 : Nat), (sh / 2 : Nat))
        else ((sw : Int), (sh : Int))
      let dsRes : Option (Int × Int) :=
        if pyTruthy envDS then
          match pyParseInt (envDS.getD "") with
          | some f =>
              if 1 < f ∧ sw % f.toNat = 0 ∧ sh % f.toNat = 0 then
                some (((sw / f.toNat : Nat) : Int), ((sh / f.toNat : Nat) : Int))
              else none
          | none => none
        else none
      match dsRes with
      | some wh => wh
      | none => auto

/-! ## Timestamp derivation -/

/-- The sliced `YYYY-MM-DD HH:MM:SS` rendering of a date field `d` and a
time field `t` used by `build_timestamp` (line 189). -/
def slicedTimestamp (d t : String) : String :=
  pySlice d 0 4 ++ "-" ++ pySlice d 4 6 ++ "-" ++ pySlice d 6 8 ++ " " ++
    pySlice t 0 2 ++ ":" ++ pySlice t 2 4 ++ ":" ++ pySlice t 4 6

/-- The condition under which `build_timestamp` (lines 183-190) uses the
sliced rendering: at least four `_`-separated parts, `parts[2]` of length
8, and the part of `parts[3]` before the first `.` of length 6.  The code
checks only these lengths, not that the fields are digits. -/
def timestampSliceCond (filename : String) : Bool :=
  let parts := pySplit filename '_'
  decide (4 ≤ parts.length) &&
    decide ((parts.getD 2 "").length = 8) &&
    decide (((pySplit (parts.getD 3 "") '.').getD 0 "").length = 6)

/-- Formalisation of the spec's filename pattern
`<prefix>_<prefix2>_<8-digit-date>_<6-digit-time>.<ext>`: exactly four
`_`-separated parts, the first two nonempty, the third made of exactly 8
digits, and the fourth starting with exactly 6 digits followed by a dot
and a nonempty extension. -/
def specTimestampPattern (filename : String) : Bool :=
  let parts := pySplit filename '_'
  let tx := parts.getD 3 ""
  let t := (pySplit tx '.').getD 0 ""
  decide (parts.length = 4) &&
    decide ((parts.getD 0 "").length ≠ 0) &&
    decide ((parts.getD 1 "").length ≠ 0) &&
    decide ((parts.getD 2 "").length = 8) &&
    (parts.getD 2 "").toList.all Char.isDigit &&
    decide (t.length = 6) &&
    t.toList.all Char.isDigit &&
    decide (2 ≤ (pySplit tx '.').length) &&
    decide (tx.toList.drop (t.length + 1) ≠ [])

/-- Model of `build_timestamp` (lines 183-190): the sliced
`YYYY-MM-DD HH:MM:SS` string when the length checks pass, otherwise the
1-based `Frame <index+1>` fallback. -/
def build_timestamp (filename : String) (index : Nat) : String :=
  let parts := pySplit filename '_'
  if 4 ≤ parts.length then
    let d := parts.getD 2 ""
    let t := (pySplit (parts.getD 3 "") '.').getD 0 ""
    if d.length = 8 ∧ t.length = 6 then slicedTimestamp d t
    else "Frame " ++ toString (index + 1)
  else "Frame " ++ toString (index + 1)

/-! ## Frame sequencer -/

/-- Zero-padded frame index, Python `f"{i:05d}"`. -/
def pad5 (i : Nat) : String :=
  let s := toString i
  String.mk (List.replicate (5 - s.length) '0') ++ s

/-- Frame filename `f"frame_{i:05d}.png"` (line 250). -/
def frameName (i : Nat) : String := "frame_" ++ pad5 i ++ ".png"

/-- One source image in the frame loop: its path and whether opening,
compositing and saving it succeeds (any exception in the `try` body of
lines 242-250 makes `okFrame` false). -/
structure FrameSrc where
  path : String
  okFrame : Bool
deriving DecidableEq

/-- The frame loop of `create_timelapse_video` (lines 241-254), started at
index `start`: each image is processed under `enumerate`'s running index;
a failing image is caught, logged and skipped, and the loop continues.
Returns the `(index, filename)` pairs of the frame files written. -/
def generate_frames (start : Nat) (imgs : List FrameSrc) : List (Nat × String) :=
  match imgs with
  | [] => []
  | img :: rest =>
      if img.okFrame then (start, frameName start) :: generate_frames (start + 1) rest
      else generate_frames (start + 1) rest

/-- Tail of `create_timelapse_video` (lines 256-264): given whether ffmpeg
succeeded and the value of `KEEP_FRAMES`, returns
`(temp directory deleted?, value returned by create_timelapse_video)`. -/
def sequencer_cleanup (encodeOk : Bool) (keepEnv : Option String) : Bool × Bool :=
  if encodeOk then
    if pyTruthy keepEnv then (false, true) else (true, true)
  else (false, false)

/-! ## Arithmetic helper lemmas -/

/-- Multiplying a scale bounded by `tw / w` by `w` and flooring stays below `tw`. -/
theorem toNat_floor_mul_le {w : Nat} (tw : Nat) (s : ℚ) (hw : 0 < w)
    (hs : s ≤ (tw : ℚ) / (w : ℚ)) : (⌊(w : ℚ) * s⌋).toNat ≤ tw := by
  have hw0 : (0 : ℚ) < (w : ℚ) := by exact_mod_cast hw
  have h1 : (w : ℚ) * s ≤ (w : ℚ) * ((tw : ℚ) / (w : ℚ)) :=
    mul_le_mul_of_nonneg_left hs (le_of_lt hw0)
  have h2 : (w : ℚ) * ((tw : ℚ) / (w : ℚ)) = (tw : ℚ) := by
    rw [mul_comm]
    exact div_mul_cancel₀ _ (ne_of_gt hw0)
  have h3 : ⌊(w : ℚ) * s⌋ ≤ (tw : Int) := by
    calc ⌊(w : ℚ) * s⌋ ≤ ⌊(tw : ℚ)⌋ := Int.floor_le_floor (h1.trans_eq h2)
    _ = (tw : Int) := Int.floor_natCast tw
  exact Int.toNat_le.mpr h3

/-- Multiplying a scale at least `t / m` by `m` and flooring stays above `t`. -/
theorem le_toNat_floor_mul {m : Nat} (t : Nat) (s : ℚ) (hm : 0 < m)
    (hs : (t : ℚ) / (m : ℚ) ≤ s) : t ≤ (⌊(m : ℚ) * s⌋).toNat := by
  have hm0 : (0 : ℚ) < (m : ℚ) := by exact_mod_cast hm
  have h1 : (t : ℚ) ≤ (m : ℚ) * s := by
    have h := mul_le_mul_of_nonneg_left hs (le_of_lt hm0)
    rwa [mul_comm (m : ℚ) ((t : ℚ) / (m : ℚ)), div_mul_cancel₀ _ (ne_of_gt hm0)] at h
  have h2 : (t : Int) ≤ ⌊(m : ℚ) * s⌋ := Int.le_floor.mpr (by exact_mod_cast h1)
  have h0 : (0 : Int) ≤ ⌊(m : ℚ) * s⌋ := le_trans (Int.ofNat_nonneg t) h2
  exact (Int.le_toNat h0).mpr h2

/-- Scaling a dimension by exactly `t / w` and flooring recovers `t`. -/
theorem toNat_floor_mul_self {w : Nat} (t : Nat) (hw : 0 < w) :
    (⌊(w : ℚ) * ((t : ℚ) / (w : ℚ))⌋).toNat = t := by
  have hw0 : ((w : ℚ)) ≠ 0 := by
    exact_mod_cast Nat.pos_iff_ne_zero.mp hw
  rw [mul_comm, div_mul_cancel₀ _ hw0, Int.floor_natCast, Int.toNat_natCast]

/-- Python `d // 2` never exceeds half of `d`. -/
theorem two_mul_fdiv_two_le (d : Int) : 2 * Int.fdiv d 2 ≤ d := by
  rw [Int.fdiv_eq_ediv _ (by norm_num)]
  have h1 := Int.ediv_add_emod d 2
  have h2 := Int.emod_nonneg d (show (2 : Int) ≠ 0 by norm_num)
  omega

/-- Python `d // 2` of a nonnegative `d` is nonnegative. -/
theorem fdiv_two_nonneg {d : Int} (hd : 0 ≤ d) : 0 ≤ Int.fdiv d 2 := by
  rw [Int.fdiv_eq_ediv _ (by norm_num)]
  exact Int.ediv_nonneg hd (by norm_num)

/-! ## C1: the fit step of the frame compositor -/

/-- C1: for a positive `w × h` source and canvas `(tw, th)`: if the source
size already equals the canvas size it is placed unscaled at the origin
filling the whole canvas (no background margin); otherwise the scale
factor is `min(tw / w, th / h)`, the scaled dimensions are bounded by the
canvas dimensions, the placement offsets are the floor halves of the
margins, and the floor biases any asymmetric remainder toward the
top-left (offset at most half the margin). -/
theorem resize_image_to_fit_spec (w h tw th : Nat) (hw : 0 < w) (hh : 0 < h) :
    fitScale w h tw th = min ((tw : ℚ) / (w : ℚ)) ((th : ℚ) / (h : ℚ)) ∧
    (w = tw ∧ h = th →
      resize_image_to_fit w h tw th = (⟨tw, th, PMode.RGBA⟩, (0, 0, tw, th))) ∧
    (¬(w = tw ∧ h = th) →
      fitW w h tw th ≤ tw ∧ fitH w h tw th ≤ th ∧
      resize_image_to_fit w h tw th =
        (⟨tw, th, PMode.RGBA⟩,
         (Int.fdiv ((tw : Int) - (fitW w h tw th : Int)) 2,
          Int.fdiv ((th : Int) - (fitH w h tw th : Int)) 2,
          fitW w h tw th, fitH w h tw th)) ∧
      0 ≤ Int.fdiv ((tw : Int) - (fitW w h tw th : Int)) 2 ∧
      2 * Int.fdiv ((tw : Int) - (fitW w h tw th : Int)) 2 ≤ (tw : Int) - (fitW w h tw th : Int) ∧
      0 ≤ Int.fdiv ((th : Int) - (fitH w h tw th : Int)) 2 ∧
      2 * Int.fdiv ((th : Int) - (fitH w h tw th : Int)) 2 ≤ (th : Int) - (fitH w h tw th : Int)) := by
  refine ⟨rfl, ?_, ?_⟩
  · rintro ⟨rfl, rfl⟩
    simp [resize_image_to_fit]
  · intro hne
    have h1 : fitW w h tw th ≤ tw := by
      unfold fitW
      exact toNat_floor_mul_le tw _ hw (min_le_left _ _)
    have h2 : fitH w h tw th ≤ th := by
      unfold fitH
      exact toNat_floor_mul_le th _ hh (min_le_right _ _)
    have hx : (0 : Int) ≤ (tw : Int) - (fitW w h tw th : Int) := by
      omega
    have hy : (0 : Int) ≤ (th : Int) - (fitH w h tw th : Int) := by
      omega
    refine ⟨h1, h2, ?_, fdiv_two_nonneg hx, two_mul_fdiv_two_le _,
      fdiv_two_nonneg hy, two_mul_fdiv_two_le _⟩
    rw [resize_image_to_fit, if_neg hne]

/-- Witness for C1 at the concrete instance `640 × 480` into `3000 × 3000`. -/
theorem resize_image_to_fit_spec_witness :
    fitW 640 480 3000 3000 ≤ 3000 :=
  ((resize_image_to_fit_spec 640 480 3000 3000 (by decide) (by decide)).2.2
    (by decide)).1

/-! ## C6: cover scaling of the background provider -/

/-- C6: for a positive reference image `mw × mh` and any canvas
`(tw, th)`, the cover-scaled size dominates the canvas in both dimensions,
the center-crop box lies inside the scaled image, and the prepared
background is opaque RGB of exactly the canvas size. -/
theorem background_cover_spec (mw mh tw th : Nat) (hmw : 0 < mw) (hmh : 0 < mh) :
    coverScale mw mh tw th = max ((tw : ℚ) / (mw : ℚ)) ((th : ℚ) / (mh : ℚ)) ∧
    tw ≤ coverW mw mh tw th ∧ th ≤ coverH mw mh tw th ∧
    0 ≤ (coverGeom mw mh tw th).2.2.1 ∧
    (coverGeom mw mh tw th).2.2.1 + (tw : Int) ≤ (coverW mw mh tw th : Int) ∧
    0 ≤ (coverGeom mw mh tw th).2.2.2 ∧
    (coverGeom mw mh tw th).2.2.2 + (th : Int) ≤ (coverH mw mh tw th : Int) ∧
    preparedMapBg mw mh tw th = ⟨tw, th, PMode.RGB⟩ := by
  have h1 : tw ≤ coverW mw mh tw th := by
    unfold coverW
    exact le_toNat_floor_mul tw _ hmw (le_max_left _ _)
  have h2 : th ≤ coverH mw mh tw th := by
    unfold coverH
    exact le_toNat_floor_mul th _ hmh (le_max_right _ _)
  have hx : (0 : Int) ≤ (coverW mw mh tw th : Int) - (tw : Int) := by omega
  have hy : (0 : Int) ≤ (coverH mw mh tw th : Int) - (th : Int) := by omega
  have hgx : (coverGeom mw mh tw th).2.2.1 =
      Int.fdiv ((coverW mw mh tw th : Int) - (tw : Int)) 2 := rfl
  have hgy : (coverGeom mw mh tw th).2.2.2 =
      Int.fdiv ((coverH mw mh tw th : Int) - (th : Int)) 2 := rfl
  refine ⟨rfl, h1, h2, ?_, ?_, ?_, ?_, ?_⟩
  · rw [hgx]
    exact fdiv_two_nonneg hx
  · rw [hgx]
    have := two_mul_fdiv_two_le ((coverW mw mh tw th : Int) - (tw : Int))
    have := fdiv_two_nonneg hx
    omega
  · rw [hgy]
    exact fdiv_two_nonneg hy
  · rw [hgy]
    have := two_mul_fdiv_two_le ((coverH mw mh tw th : Int) - (th : Int))
    have := fdiv_two_nonneg hy
    omega
  · unfold preparedMapBg cropSize
    simp [add_sub_cancel_left]

/-- Witness for C6 at a concrete `100 × 50` reference and `300 × 300` canvas. -/
theorem background_cover_spec_witness :
    preparedMapBg 100 50 300 300 = ⟨300, 300, PMode.RGB⟩ :=
  (background_cover_spec 100 50 300 300 (by decide) (by decide)).2.2.2.2.2.2.2

/-! ## C10: scaled dimensions can collapse to zero -/

/-- C10 counterexample: a `1 × 4000` source into a `3000 × 3000` canvas —
the very example named in the claim — gets scale `3/4` and scaled width
`int(1 * 0.75) = 0`, so the nearest-neighbor resize is invoked with a zero
dimension; the claim that both scaled dimensions are always at least 1 is
false. -/
theorem resize_zero_dim_counterexample :
    (resize_image_to_fit 1 4000 3000 3000).2.2.2.1 = 0 := by
  have hmin : fitScale 1 4000 3000 3000 = 3 / 4 := by
    unfold fitScale
    rw [min_eq_right (by norm_num)]
    norm_num
  have h0 : fitW 1 4000 3000 3000 = 0 := by
    unfold fitW
    rw [hmin]
    norm_num [Int.floor_eq_zero_iff]
  have hproj : (resize_image_to_fit 1 4000 3000 3000).2.2.2.1 = fitW 1 4000 3000 3000 := by
    rw [resize_image_to_fit, if_neg (by decide)]
  rw [hproj, h0]

/-- C10 amended: in the scaling branch the binding dimension is mapped
exactly onto its canvas dimension (so at least one scaled dimension is
positive whenever the canvas is), but the other scaled dimension can be 0
for extreme aspect ratios. -/
theorem resize_binding_dim_exact (w h tw th : Nat) (hw : 0 < w) (hh : 0 < h)
    (hne : ¬(w = tw ∧ h = th)) :
    (resize_image_to_fit w h tw th).2.2.2.1 = tw ∨
    (resize_image_to_fit w h tw th).2.2.2.2 = th := by
  have hproj1 : (resize_image_to_fit w h tw th).2.2.2.1 = fitW w h tw th := by
    rw [resize_image_to_fit, if_neg hne]
  have hproj2 : (resize_image_to_fit w h tw th).2.2.2.2 = fitH w h tw th := by
    rw [resize_image_to_fit, if_neg hne]
  rcases le_total ((tw : ℚ) / (w : ℚ)) ((th : ℚ) / (h : ℚ)) with hc | hc
  · left
    rw [hproj1]
    unfold fitW
    rw [show fitScale w h tw th = (tw : ℚ) / (w : ℚ) from min_eq_left hc]
    exact toNat_floor_mul_self tw hw
  · right
    rw [hproj2]
    unfold fitH
    rw [show fitScale w h tw th = (th : ℚ) / (h : ℚ) from min_eq_right hc]
    exact toNat_floor_mul_self th hh

/-- Witness for the amended C10 at `10 × 20` into `30 × 30`. -/
theorem resize_binding_dim_exact_witness :
    (resize_image_to_fit 10 20 30 30).2.2.2.1 = 30 ∨
    (resize_image_to_fit 10 20 30 30).2.2.2.2 = 30 :=
  resize_binding_dim_exact 10 20 30 30 (by decide) (by decide) (by decide)

/-! ## C2: canvas sizer decision order -/

/-- C2: the four canvas-sizer scenarios: a forced `800 × 600` wins over any
image list and divisor; `DOWNSCALE_FACTOR=2` on a `4000 × 3000` first image
gives `2000 × 1500`; no divisor on a `5000 × 5000` first image auto-halves
to `2500 × 2500`; an empty image list gives the `3000 × 3000` default. -/
theorem determine_video_size_scenarios :
    (∀ envDS imgs, determine_video_size (some "800") (some "600") envDS imgs = (800, 600)) ∧
    determine_video_size none none (some "2") [some (4000, 3000)] = (2000, 1500) ∧
    determine_video_size none none none [some (5000, 5000)] = (2500, 2500) ∧
    (∀ envDS, determine_video_size none none envDS [] = (3000, 3000)) :=
  ⟨fun _ _ => rfl, rfl, rfl, fun _ => rfl⟩

/-! ## C3: canvas sizer positivity -/

/-- C3 counterexample: with `VIDEO_WIDTH=0` and `VIDEO_HEIGHT=0` the
override branch parses both as the integer 0 and returns `(0, 0)` with no
positivity check, so the sizer does not always return strictly positive
dimensions. -/
theorem forced_zero_counterexample :
    determine_video_size (some "0") (some "0") none [] = (0, 0) ∧
    ¬(0 < (determine_video_size (some "0") (some "0") none []).1) :=
  ⟨rfl, by decide⟩

/-- C3 amended: the explicit override is used exactly when both variables
are truthy and parse as integers, and is then returned unchecked (it may
be zero or negative); whenever the override does not fire and any
successful first-image inspection yields positive dimensions, every other
branch returns strictly positive width and height. -/
theorem determine_video_size_positive_amended (envW envH envDS : Option String)
    (imgs : List (Option (Nat × Nat))) :
    (∀ p, forcedSize envW envH = some p → determine_video_size envW envH envDS imgs = p) ∧
    (forcedSize envW envH = none →
      (∀ sw sh rest, imgs = some (sw, sh) :: rest → 0 < sw ∧ 0 < sh) →
      0 < (determine_video_size envW envH envDS imgs).1 ∧
      0 < (determine_video_size envW envH envDS imgs).2) := by
  constructor
  · intro p hp
    unfold determine_video_size
    rw [hp]
  · intro hforce himg
    unfold determine_video_size
    rw [hforce]
    rcases imgs with _ | ⟨first, rest⟩
    · norm_num [DEFAULT_VIDEO_WIDTH, DEFAULT_VIDEO_HEIGHT]
    · rcases first with _ | ⟨sw, sh⟩
      · norm_num [DEFAULT_VIDEO_WIDTH, DEFAULT_VIDEO_HEIGHT]
      · obtain ⟨hsw, hsh⟩ := himg sw sh rest rfl
        have hauto :
            0 < (if 4000 ≤ sw ∧ sw % 2 = 0 ∧ sh % 2 = 0 then
                  (((sw / 2 : Nat) : Int), ((sh / 2 : Nat) : Int))
                else ((sw : Int), (sh : Int))).1 ∧
            0 < (if 4000 ≤ sw ∧ sw % 2 = 0 ∧ sh % 2 = 0 then
                  (((sw / 2 : Nat) : Int), ((sh / 2 : Nat) : Int))
                else ((sw : Int), (sh : Int))).2 := by
          by_cases hc : 4000 ≤ sw ∧ sw % 2 = 0 ∧ sh % 2 = 0
          · rw [if_pos hc]
            constructor
            · show (0 : Int) < ((sw / 2 : Nat) : Int)
              exact_mod_cast Nat.div_pos (by omega) (by omega)
            · show (0 : Int) < ((sh / 2 : Nat) : Int)
              have h2 : 2 ≤ sh := by omega
              exact_mod_cast Nat.div_pos h2 (by omega)
          · rw [if_neg hc]
            constructor
            · show (0 : Int) < ((sw : Nat) : Int)
              exact_mod_cast hsw
            · show (0 : Int) < ((sh : Nat) : Int)
              exact_mod_cast hsh
        cases hds : pyTruthy envDS
        · simpa only [hds, Bool.false_eq_true, if_false] using hauto
        · simp only [hds, if_true]
          cases hparse : pyParseInt (envDS.getD "")
          · simpa only [] using hauto
          · rename_i f
            dsimp only
            by_cases hc : 1 < f ∧ sw % f.toNat = 0 ∧ sh % f.toNat = 0
            · rw [if_pos hc]
              obtain ⟨hf, hmw, hmh⟩ := hc
              have hfn : 2 ≤ f.toNat := by omega
              constructor
              · show (0 : Int) < ((sw / f.toNat : Nat) : Int)
                exact_mod_cast Nat.div_pos
                  (Nat.le_of_dvd hsw (Nat.dvd_of_mod_eq_zero hmw)) (by omega)
              · show (0 : Int) < ((sh / f.toNat : Nat) : Int)
                exact_mod_cast Nat.div_pos
                  (Nat.le_of_dvd hsh (Nat.dvd_of_mod_eq_zero hmh)) (by omega)
            · rw [if_neg hc]
              exact hauto

/-- Witness for the amended C3: no override, a positive `10 × 20` first
image. -/
theorem determine_video_size_positive_amended_witness :
    0 < (determine_video_size none none none [some (10, 20)]).1 ∧
    0 < (determine_video_size none none none [some (10, 20)]).2 :=
  (determine_video_size_positive_amended none none none [some (10, 20)]).2 rfl
    (by
      intro sw sh rest heq
      simp only [List.cons.injEq, Option.some.injEq, Prod.mk.injEq] at heq
      obtain ⟨⟨h1, h2⟩, -⟩ := heq
      omega)

/-! ## C4: timestamp derivation -/

/-- C4 counterexample: `a_b_abcdefgh_ijklmn.png` does not match the spec's
digit pattern, yet the code's length-only check accepts it and returns the
sliced string `abcd-ef-gh ij:kl:mn` instead of the claimed `Frame 1`, so
the "exactly when" biconditional fails. -/
theorem build_timestamp_nondigit_counterexample :
    specTimestampPattern "a_b_abcdefgh_ijklmn.png" = false ∧
    build_timestamp "a_b_abcdefgh_ijklmn.png" 0 = "abcd-ef-gh ij:kl:mn" :=
  ⟨by decide, by decide⟩

/-- C4 amended: every filename matching the spec pattern satisfies the
code's length-only condition and is rendered by slicing; whenever the
length condition fails the 1-based `Frame <index+1>` fallback is used; the
two quoted examples behave as claimed.  (The converse of the first part is
false: the code checks field lengths, not digits.) -/
theorem build_timestamp_amended :
    (∀ f, specTimestampPattern f = true → timestampSliceCond f = true) ∧
    (∀ f i, timestampSliceCond f = true →
      build_timestamp f i =
        slicedTimestamp ((pySplit f '_').getD 2 "")
          ((pySplit ((pySplit f '_').getD 3 "") '.').getD 0 "")) ∧
    (∀ f i, timestampSliceCond f = false →
      build_timestamp f i = "Frame " ++ toString (i + 1)) ∧
    (∀ i, build_timestamp "merged_tiles_20240115_143022.png" i = "2024-01-15 14:30:22") ∧
    build_timestamp "weird.png" 4 = "Frame 5" := by
  refine ⟨?_, ?_, ?_, fun i => rfl, rfl⟩
  · intro f h
    simp only [specTimestampPattern, Bool.and_eq_true, decide_eq_true_eq] at h
    obtain ⟨⟨⟨⟨⟨⟨⟨⟨h4, hp1⟩, hp2⟩, h8⟩, hdig⟩, h6⟩, htdig⟩, hdot⟩, hext⟩ := h
    simp only [timestampSliceCond, Bool.and_eq_true, decide_eq_true_eq]
    exact ⟨⟨by omega, h8⟩, h6⟩
  · intro f i h
    simp only [timestampSliceCond, Bool.and_eq_true, decide_eq_true_eq] at h
    obtain ⟨⟨h4, h8⟩, h6⟩ := h
    simp only [build_timestamp]
    rw [if_pos h4, if_pos ⟨h8, h6⟩]
  · intro f i h
    simp only [build_timestamp]
    by_cases h4 : 4 ≤ (pySplit f '_').length
    · by_cases h86 : ((pySplit f '_').getD 2 "").length = 8 ∧
        ((pySplit ((pySplit f '_').getD 3 "") '.').getD 0 "").length = 6
      · exfalso
        have ht : timestampSliceCond f = true := by
          simp only [timestampSliceCond, Bool.and_eq_true, decide_eq_true_eq]
          exact ⟨⟨h4, h86.1⟩, h86.2⟩
        simp [ht] at h
      · rw [if_pos h4, if_neg h86]
    · rw [if_neg h4]

/-- Witness for the amended C4 at the repository's own filename shape. -/
theorem build_timestamp_amended_witness :
    build_timestamp "merged_tiles_20240115_143022.png" 0 =
      slicedTimestamp ((pySplit "merged_tiles_20240115_143022.png" '_').getD 2 "")
        ((pySplit ((pySplit "merged_tiles_20240115_143022.png" '_').getD 3 "") '.').getD 0 "") :=
  build_timestamp_amended.2.1 "merged_tiles_20240115_143022.png" 0 (by decide)

/-! ## C5: image locator ordering -/

/-- C5: the locator's result is a permutation of the glob-filtered listing
(non-matching sort keys are still included), it is sorted ascending by the
embedded date-time sort key (raw filename fallback for filenames without
four `_`-parts), and it is deterministic on identical directory contents
(the model is a pure function of the listing). -/
theorem get_images_for_date_spec (files : List String) :
    (get_images_for_date (some files)).Perm (files.filter globMatchMergedTiles) ∧
    List.Pairwise (fun a b => sortKey a ≤ sortKey b) (get_images_for_date (some files)) ∧
    get_images_for_date (some files) = get_images_for_date (some files) := by
  have htrans : ∀ a b c : String,
      (decide (sortKey a ≤ sortKey b)) = true →
      (decide (sortKey b ≤ sortKey c)) = true →
      (decide (sortKey a ≤ sortKey c)) = true := fun a b c hab hbc =>
    decide_eq_true (le_trans (of_decide_eq_true hab) (of_decide_eq_true hbc))
  have htotal : ∀ a b : String,
      ((decide (sortKey a ≤ sortKey b)) || (decide (sortKey b ≤ sortKey a))) = true := by
    intro a b
    rcases le_total (sortKey a) (sortKey b) with h | h
    · rw [decide_eq_true h]
      rfl
    · rw [decide_eq_true h]
      exact Bool.or_true _
  refine ⟨?_, ?_, rfl⟩
  · simp only [get_images_for_date]
    exact List.mergeSort_perm _ _
  · simp only [get_images_for_date]
    exact List.Pairwise.imp (fun hab => of_decide_eq_true hab)
      (List.sorted_mergeSort htrans htotal (files.filter globMatchMergedTiles))

/-! ## C7: background caching -/

/-- C7 counterexample: with `USE_MAP` on and a reference file that exists
but fails to load, the first call caches nothing, so an immediately
following call at the same canvas size opens the reference file again —
the claim that the second of two consecutive same-size calls never
re-opens the reference is false. -/
theorem background_reopen_counterexample :
    (load_and_prepare_background ⟨true, RefState.corrupt⟩
      (load_and_prepare_background ⟨true, RefState.corrupt⟩ none 10 10).cache
      10 10).openedRef = true := rfl

/-- C7 amended: unless the reference file is present but unreadable, two
consecutive calls at the same canvas size return equal backgrounds, the
second call performs no reference-file open, and the cache is unchanged by
the second call (the background is computed at most once per size). -/
theorem background_cache_second_call (W : BgWorld) (c : Option (Nat × Nat × PImg))
    (tw th : Nat) (href : W.ref ≠ RefState.corrupt) :
    (load_and_prepare_background W (load_and_prepare_background W c tw th).cache tw th).bg =
      (load_and_prepare_background W c tw th).bg ∧
    (load_and_prepare_background W
      (load_and_prepare_background W c tw th).cache tw th).openedRef = false ∧
    (load_and_prepare_background W (load_and_prepare_background W c tw th).cache tw th).cache =
      (load_and_prepare_background W c tw th).cache := by
  rcases W with ⟨um, ref⟩
  cases um
  · simp [load_and_prepare_background]
  · cases ref with
    | absent =>
      rcases c with _ | ⟨⟨cw, ch, bg⟩⟩
      · simp [load_and_prepare_background, bgAfterCacheMiss]
      · by_cases hc : cw = tw ∧ ch = th
        · simp [load_and_prepare_background, hc]
        · simp [load_and_prepare_background, bgAfterCacheMiss, hc]
    | corrupt => exact absurd rfl href
    | available mw mh =>
      rcases c with _ | ⟨⟨cw, ch, bg⟩⟩
      · simp [load_and_prepare_background, bgAfterCacheMiss]
      · by_cases hc : cw = tw ∧ ch = th
        · simp [load_and_prepare_background, hc]
        · simp [load_and_prepare_background, bgAfterCacheMiss, hc]

/-- Witness for the amended C7 with a readable `20 × 10` reference. -/
theorem background_cache_second_call_witness :
    (load_and_prepare_background ⟨true, RefState.available 20 10⟩
      (load_and_prepare_background ⟨true, RefState.available 20 10⟩ none 30 30).cache
      30 30).openedRef = false :=
  (background_cache_second_call ⟨true, RefState.available 20 10⟩ none 30 30
    (by decide)).2.1

/-! ## C8: per-frame failure isolation -/

/-- Membership in the frame loop's output started at index `k`. -/
theorem generate_frames_mem (imgs : List FrameSrc) (k j : Nat) (f : String) :
    (j, f) ∈ generate_frames k imgs ↔
      ∃ m : Nat, ∃ hm : m < imgs.length,
        j = k + m ∧ imgs[m].okFrame = true ∧ f = frameName (k + m) := by
  induction imgs generalizing k with
  | nil => simp [generate_frames]
  | cons img rest ih =>
    simp only [generate_frames]
    by_cases hok : img.okFrame = true
    · rw [if_pos hok]
      constructor
      · intro hmem
        rcases List.mem_cons.mp hmem with heq | hmem'
        · obtain ⟨hj, hf⟩ := Prod.mk.inj heq
          exact ⟨0, Nat.succ_pos _, by omega, by simpa using hok, by simp [hf]⟩
        · obtain ⟨m, hm, hj, ho, hf⟩ := (ih (k + 1)).mp hmem'
          exact ⟨m + 1, by simpa using Nat.succ_lt_succ hm, by omega,
            by simpa using ho, by rw [hf]; congr 1; omega⟩
      · rintro ⟨m, hm, hj, ho, hf⟩
        rcases m with _ | m'
        · apply List.mem_cons.mpr
          left
          rw [hj, hf]
          norm_num
        · apply List.mem_cons.mpr
          right
          refine (ih (k + 1)).mpr
            ⟨m', by simp only [List.length_cons] at hm; omega, by omega,
              by simpa using ho, ?_⟩
          rw [hf]
          congr 1
          omega
    · rw [if_neg hok]
      rw [ih (k + 1)]
      constructor
      · rintro ⟨m, hm, hj, ho, hf⟩
        exact ⟨m + 1, by simpa using Nat.succ_lt_succ hm, by omega,
          by simpa using ho, by rw [hf]; congr 1; omega⟩
      · rintro ⟨m, hm, hj, ho, hf⟩
        rcases m with _ | m'
        · exact absurd (by simpa using ho) hok
        · exact ⟨m', by simp only [List.length_cons] at hm; omega, by omega,
            by simpa using ho, by rw [hf]; congr 1; omega⟩

/-- C8: a failing source image is skipped without aborting the loop: a
frame file appears for an index exactly when that source processes
successfully (so later images are still processed after a failure and no
file is written for a failed one), and every emitted frame keeps its
original 0-based index in its filename — hence the numbering may have
gaps. -/
theorem frame_failure_isolation (imgs : List FrameSrc) :
    (∀ j, ∀ hj : j < imgs.length,
      (imgs[j].okFrame = true ↔ (j, frameName j) ∈ generate_frames 0 imgs)) ∧
    (∀ j f, (j, f) ∈ generate_frames 0 imgs →
      f = frameName j ∧ ∃ hj : j < imgs.length, imgs[j].okFrame = true) := by
  constructor
  · intro j hj
    rw [generate_frames_mem]
    constructor
    · intro hok
      exact ⟨j, hj, by omega, hok, by congr 1; omega⟩
    · rintro ⟨m, hm, hj0, ho, hf⟩
      have hmj : m = j := by omega
      subst hmj
      exact ho
  · intro j f hmem
    obtain ⟨m, hm, hj0, ho, hf⟩ := (generate_frames_mem imgs 0 j f).mp hmem
    have hmj : m = j := by omega
    subst hmj
    refine ⟨?_, hm, ho⟩
    rw [hf]
    congr 1
    omega

/-- Witness for C8: with the second of three images failing, the third
still produces its frame under its original index 2. -/
theorem frame_failure_isolation_witness :
    (2, frameName 2) ∈
      generate_frames 0 [⟨"a.png", true⟩, ⟨"b.png", false⟩, ⟨"c.png", true⟩] :=
  ((frame_failure_isolation [⟨"a.png", true⟩, ⟨"b.png", false⟩, ⟨"c.png", true⟩]).1
    2 (by decide)).mp (by decide)

/-! ## C9: cleanup policy -/

/-- C9: the temporary frame directory is deleted exactly when the encoder
succeeded and the retain-frames option is not set; on success with
`KEEP_FRAMES` set the directory is kept; on encoder failure the directory
is kept and `create_timelapse_video` reports failure. -/
theorem cleanup_policy (encodeOk : Bool) (keepEnv : Option String) :
    ((sequencer_cleanup encodeOk keepEnv).1 = true ↔
      encodeOk = true ∧ pyTruthy keepEnv = false) ∧
    (sequencer_cleanup encodeOk keepEnv).2 = encodeOk := by
  cases encodeOk <;> cases hk : pyTruthy keepEnv <;>
    simp [sequencer_cleanup, hk]

end Timelapse
